import Mathlib

/-!
Shallow embedding of the httm snapshot-lookup core (`src/lookup.rs` and
`src/deleted.rs`).

Representation choices:
* An absolute filesystem path is a list of its components past the root:
  `[]` is `/`, `["usr", "bin"]` is `/usr/bin`.  Rust `Path::starts_with`
  is component-wise prefix (`List.IsPrefix`), `Path::join` is list append,
  `Path::parent` drops the last component (root's parent is root, matching
  `parent().unwrap_or(Path::new("/"))`), and `Path::strip_prefix` drops a
  component-wise prefix.  The Rust byte length of the rendered path string
  (used by `max_by_key(|x| x.len())` on mount points) is `pathStrLen`.
* The filesystem is an explicit read-only oracle `FS`: `readDir` returns
  the readable entry names of a directory or `none` on an I/O error
  (matching `std::fs::read_dir` whose per-entry errors are flattened away),
  and `probe` returns `(modification_time, size)` or `none` when the stat
  fails (a phantom path).
* `FxHashMap` insertion with last-write-wins followed by value extraction
  is modelled by `dedupByKeyLast`, which keeps the last occurrence per key;
  `HashMap::get` on the resulting table is `lookupAssoc`.  Rayon's
  `max_by_key` (latest of several equal maxima wins) is `maxByKeyLast`.
* `par_sort_unstable_by_key(|pd| pd.system_time)` is modelled by
  insertion sort on `timeLE` (any tie order is a valid refinement).
* The distinct `HttmError` message strings of the source are mapped to the
  constructors of `HttmError` below; `std::io` errors propagated with `?`
  become `ioError`.
-/

/-- A filesystem path as the list of its components past the root. -/
abbrev FsPath := List String

/-- Byte length of the rendered path string: `/` has length 1, otherwise
each component contributes a leading separator plus its own length.  This
is `x.len()` for the canonical mount-point strings of the mount table. -/
def pathStrLen (p : FsPath) : Nat :=
  if p.isEmpty then 1 else p.foldl (fun a c => a + 1 + c.length) 0

/-- Modelled from the spec: `PathData` (its constructor lives outside the
given sources) normalizes a path probe into size, modification time and an
existence flag; `is_phantom` is true when the stat failed. -/
structure PathData where
  path_buf : FsPath
  system_time : Nat
  size : Nat
  is_phantom : Bool
deriving DecidableEq, Repr

/-- The `(modification_time, size)` fingerprint used for version identity. -/
def fingerprint (pd : PathData) : Nat × Nat :=
  (pd.system_time, pd.size)

/-- The read-only filesystem oracle: directory listings and stat probes. -/
structure FS where
  readDir : FsPath → Option (List String)
  probe : FsPath → Option (Nat × Nat)

/-- Modelled from the spec: `PathData::from` probes a path; on failure the
entry is phantom (the metadata fields are irrelevant and set to 0). -/
def PathData.fromPath (fs : FS) (p : FsPath) : PathData :=
  match fs.probe p with
  | some (t, s) => ⟨p, t, s, false⟩
  | none => ⟨p, 0, 0, true⟩

/-- The `UserDefined` snapshot-location strategy: explicit snapshot root
and live-tree root. -/
structure DefinedDirs where
  snap_dir : FsPath
  local_dir : FsPath
deriving DecidableEq, Repr

/-- `SnapPoint`: native mount-table inference or user-defined directories.
A mount-table row is `(dataset identifier, mount point)`. -/
inductive SnapPoint where
  | Native (mount_collection : List (String × FsPath))
  | UserDefined (defined_dirs : DefinedDirs)
deriving DecidableEq, Repr

/-- The fields of `Config` consumed by the lookup core. -/
structure Config where
  snap_point : SnapPoint
  opt_alt_replicated : Bool
  opt_no_live_vers : Bool
deriving DecidableEq, Repr

/-- Error kinds of the core, one constructor per distinct source message:
`noQualifyingDataset` ("Could not identify any qualifying dataset…"),
`noAlternateReplica` ("httm was unable to detect an alternate replicated
mount point…"), `pathNotUnderSnapshotRoot` (the two strip-prefix hints),
`noVersionsFound` ("Neither a live copy, nor a snapshot copy…"), and
`ioError` for propagated `std::io` directory-listing failures. -/
inductive HttmError where
  | noQualifyingDataset
  | noAlternateReplica
  | pathNotUnderSnapshotRoot
  | noVersionsFound
  | ioError
deriving DecidableEq, Repr

deriving instance DecidableEq for Except

/-- Keep, for each key, only the last occurrence in the list: the value
set of a hash map populated by repeated last-write-wins insertion. -/
def dedupByKeyLast {α : Type} {κ : Type} [DecidableEq κ] (key : α → κ) :
    List α → List α
  | [] => []
  | a :: as =>
    if key a ∈ as.map key then dedupByKeyLast key as
    else a :: dedupByKeyLast key as

/-- First association for a key, used on tables whose keys are already
unique: `HashMap::get`. -/
def lookupAssoc {κ β : Type} [DecidableEq κ] (l : List (κ × β)) (k : κ) :
    Option β :=
  match l with
  | [] => none
  | e :: es => if e.1 = k then some e.2 else lookupAssoc es k

/-- `max_by_key`: the latest of several equally maximal elements wins
(rayon semantics). -/
def maxByKeyLast {α : Type} (key : α → Nat) : List α → Option α
  | [] => none
  | a :: as =>
    match maxByKeyLast key as with
    | none => some a
    | some b => if key a ≤ key b then some b else some a

/-- Sorting relation on `PathData`: ascending modification time. -/
def timeLE (a b : PathData) : Prop := a.system_time ≤ b.system_time

instance : DecidableRel timeLE := fun a b => Nat.decLe a.system_time b.system_time

instance : IsTotal PathData timeLE := ⟨fun a b => Nat.le_total a.system_time b.system_time⟩

instance : IsTrans PathData timeLE := ⟨fun _ _ _ h h2 => Nat.le_trans h h2⟩

/-- `par_sort_unstable_by_key(|pathdata| pathdata.system_time)`. -/
def sortByTime (l : List PathData) : List PathData :=
  l.insertionSort timeLE

/-- `Path::strip_prefix`: drop a component-wise prefix or fail. -/
def stripPrefixOf (p pre : FsPath) : Option FsPath :=
  if pre.isPrefixOf p then some (p.drop pre.length) else none

/-- `get_immediate_dataset` from `src/lookup.rs`: filter the mount table
to mount points that are a path-prefix of the file's parent directory and
pick the longest. -/
def get_immediate_dataset (pathdata : PathData)
    (mount_collection : List (String × FsPath)) : Except HttmError FsPath :=
  let parent_folder := pathdata.path_buf.dropLast
  let potential_mountpoints :=
    (mount_collection.map (fun e => e.2)).filter
      (fun line => line.isPrefixOf parent_folder)
  if potential_mountpoints.isEmpty then
    Except.error HttmError.noQualifyingDataset
  else
    match maxByKeyLast pathStrLen potential_mountpoints with
    | some bpmp => Except.ok bpmp
    | none => Except.error HttmError.noQualifyingDataset

/-- Model of Rust `str::ends_with`: suffix test on the character data
(equivalent to the byte-suffix test on well-formed strings, and
structurally recursive so that concrete instances evaluate). -/
def strEndsWith (s post : String) : Bool := post.data.isSuffixOf s.data

/-- The reversed mount table (`unique_mounts`): mount point as key,
dataset identifier as value, later rows overwriting earlier ones. -/
def reverse_index (mount_collection : List (String × FsPath)) :
    List (FsPath × String) :=
  dedupByKeyLast Prod.fst (mount_collection.map (fun e => (e.2, e.1)))

/-- `get_alt_replicated_dataset` from `src/lookup.rs`: look the input
mount point up in the reversed table, scan for dataset identifiers that
end with the input's identifier, keep the longest, and refuse to return
the input mount point itself. -/
def get_alt_replicated_dataset (immediate_dataset_snap_mount : FsPath)
    (mount_collection : List (String × FsPath)) :
    Except HttmError (FsPath × FsPath) :=
  let unique_mounts := reverse_index mount_collection
  match lookupAssoc unique_mounts immediate_dataset_snap_mount with
  | some immediate_dataset_fs_name =>
    match maxByKeyLast (fun e => e.2.length)
        (unique_mounts.filter
          (fun e => strEndsWith e.2 immediate_dataset_fs_name)) with
    | some alt =>
      if alt.1 = immediate_dataset_snap_mount then
        Except.error HttmError.noAlternateReplica
      else
        Except.ok (alt.1, immediate_dataset_snap_mount)
    | none => Except.error HttmError.noAlternateReplica
  | none => Except.error HttmError.noAlternateReplica

/-- `get_search_dirs` from `src/lookup.rs`: choose the dataset (user
defined, immediate, or alternate replica), build the hidden snapshot root
under it, and strip the relative path; in `Native` mode the stripped
prefix is always the immediate mount point. -/
def get_search_dirs (config : Config) (file_pathdata : PathData)
    (for_alt_replicated : Bool) : Except HttmError (FsPath × FsPath) :=
  let file_path := file_pathdata.path_buf
  let pair : Except HttmError (FsPath × FsPath) :=
    match config.snap_point with
    | SnapPoint.UserDefined dd => Except.ok (dd.snap_dir, dd.snap_dir)
    | SnapPoint.Native mc =>
      match get_immediate_dataset file_pathdata mc with
      | Except.error e => Except.error e
      | Except.ok imm =>
        if for_alt_replicated then get_alt_replicated_dataset imm mc
        else Except.ok (imm, imm)
  match pair with
  | Except.error e => Except.error e
  | Except.ok (dataset, immediate_dataset_snap_mount) =>
    let hidden_snapshot_dir := dataset ++ [".zfs", "snapshot"]
    let local_path? :=
      match config.snap_point with
      | SnapPoint.UserDefined dd => stripPrefixOf file_path dd.local_dir
      | SnapPoint.Native _ =>
        stripPrefixOf file_path immediate_dataset_snap_mount
    match local_path? with
    | some local_path => Except.ok (hidden_snapshot_dir, local_path)
    | none => Except.error HttmError.pathNotUnderSnapshotRoot

/-- The per-snapshot probes of `get_versions`: one candidate per entry of
the hidden snapshot root, joined with the relative path and probed, the
phantom ones filtered out. -/
def version_probes (fs : FS) (root rel : FsPath) (entries : List String) :
    List PathData :=
  ((((entries.map (fun name => root ++ [name])).map
    (fun p => p ++ rel)).map
    (fun p => PathData.fromPath fs p)).filter
    (fun pd => !pd.is_phantom))

/-- `get_versions` from `src/lookup.rs`: list the snapshot root, probe
each snapshot's copy, drop phantoms, deduplicate by fingerprint
(last-write-wins) and sort ascending by modification time. -/
def get_versions (fs : FS) (search_dirs : FsPath × FsPath) :
    Except HttmError (List PathData) :=
  match fs.readDir search_dirs.1 with
  | none => Except.error HttmError.ioError
  | some entries =>
    Except.ok (sortByTime (dedupByKeyLast fingerprint
      (version_probes fs search_dirs.1 search_dirs.2 entries)))

/-- The `all_snaps` collection of `lookup_exec`: with `opt_alt_replicated`
each input path is searched once for the alternate replica and once for
the immediate dataset, errors of either stage silently dropped, and the
per-pass version lists concatenated; otherwise a single immediate pass
runs per path. -/
def all_snaps (fs : FS) (config : Config) (path_data : List PathData) :
    List PathData :=
  if config.opt_alt_replicated then
    (((path_data.map (fun pd =>
        [get_search_dirs config pd true,
         get_search_dirs config pd false])).flatten.filterMap
        Except.toOption).filterMap
        (fun sd => (get_versions fs sd).toOption)).flatten
  else
    ((path_data.filterMap
        (fun pd => (get_search_dirs config pd false).toOption)).filterMap
        (fun sd => (get_versions fs sd).toOption)).flatten

/-- The contribution of one resolution pass of `lookup_exec` for one
input path: the `get_versions` result of that path's search directories,
or the empty list when either stage failed (both errors are silently
dropped by the pipeline). -/
def pass_versions (fs : FS) (config : Config) (pd : PathData)
    (for_alt_replicated : Bool) : List PathData :=
  ((get_search_dirs config pd for_alt_replicated).toOption.bind
    (fun sd => (get_versions fs sd).toOption)).getD []

/-- The retained live versions of `lookup_exec`: the input paths unless
the user suppressed live versions. -/
def live_versions_of (config : Config) (path_data : List PathData) :
    List PathData :=
  if !config.opt_no_live_vers then path_data else []

/-- `lookup_exec` from `src/lookup.rs`: collect snapshot versions and the
retained live versions, failing with `noVersionsFound` when the snapshot
list is empty and every retained live version is phantom. -/
def lookup_exec (fs : FS) (config : Config) (path_data : List PathData) :
    Except HttmError (List PathData × List PathData) :=
  let snaps := all_snaps fs config path_data
  let live_versions := live_versions_of config path_data
  if snaps.isEmpty && live_versions.all (fun i => i.is_phantom) then
    Except.error HttmError.noVersionsFound
  else
    Except.ok (snaps, live_versions)

/-- The `snap_files` collection of `get_deleted_per_dataset`: for each
snapshot directory of the root, its listing of the relative directory,
each entry paired with its filename; unreadable snapshot directories are
skipped. -/
def snap_files_of (fs : FS) (root rel : FsPath) (snapNames : List String) :
    List (String × FsPath) :=
  ((snapNames.map (fun s =>
    let dir := root ++ [s] ++ rel
    match fs.readDir dir with
    | some ns => ns.map (fun n => (n, dir ++ [n]))
    | none => [])).flatten)

/-- The `deleted_pathdata` stage of `get_deleted_per_dataset`: unique
snapshot filenames absent from the live listing, converted to `PathData`. -/
def deleted_candidates (fs : FS) (liveNames : List String)
    (snapFiles : List (String × FsPath)) : List PathData :=
  (((dedupByKeyLast Prod.fst snapFiles).filter
    (fun e => !(decide (e.1 ∈ dedupByKeyLast id liveNames)))).map
    (fun e => PathData.fromPath fs e.2))

/-- `get_deleted_per_dataset` from `src/deleted.rs`: list the live
directory and the snapshot root (both fatal on failure), index snapshot
entries by filename, keep the filenames absent live, and deduplicate the
survivors by fingerprint before sorting by modification time. -/
def get_deleted_per_dataset (fs : FS) (path : FsPath)
    (search_dirs : FsPath × FsPath) : Except HttmError (List PathData) :=
  match fs.readDir path with
  | none => Except.error HttmError.ioError
  | some local_dir_entries =>
    match fs.readDir search_dirs.1 with
    | none => Except.error HttmError.ioError
    | some snapNames =>
      Except.ok (sortByTime (dedupByKeyLast fingerprint
        (deleted_candidates fs local_dir_entries
          (snap_files_of fs search_dirs.1 search_dirs.2 snapNames))))

/-- `get_deleted` from `src/deleted.rs`: run the per-dataset detector for
the immediate pass (and the alternate pass when configured), silently
dropping search-dir and per-dataset errors, and — only when the alternate
pass is configured — deduplicate the concatenation by fingerprint. -/
def get_deleted (fs : FS) (config : Config) (path : FsPath) :
    Except HttmError (List PathData) :=
  let immediate_dataset_deleted : List PathData :=
    (([path].filterMap (fun p =>
        (get_search_dirs config (PathData.fromPath fs p) false).toOption)).filterMap
      (fun sd => (get_deleted_per_dataset fs path sd).toOption)).flatten
  let combined_deleted : List PathData :=
    if config.opt_alt_replicated then
      let alt_replicated_deleted : List PathData :=
        (([path].filterMap (fun p =>
            (get_search_dirs config (PathData.fromPath fs p) true).toOption)).filterMap
          (fun sd => (get_deleted_per_dataset fs path sd).toOption)).flatten
      immediate_dataset_deleted ++ alt_replicated_deleted
    else immediate_dataset_deleted
  let unique_deleted : List PathData :=
    if config.opt_alt_replicated then
      dedupByKeyLast fingerprint combined_deleted
    else combined_deleted
  Except.ok unique_deleted

/-- Final path component, empty for the root. -/
def lastName (p : FsPath) : String := p.getLastD ""

/-- Filename of an observed entry: the final component of its path. -/
def pdName (pd : PathData) : String := lastName pd.path_buf

/-! ### Concrete fixtures used by counterexamples and witnesses -/

/-- Fixture: one snapshot `s1` under the user-defined snapshot root `/sd`
holding a copy of `f` with fingerprint `(1, 1)`. -/
def exFS1 : FS where
  readDir := fun p => if p = ["sd", ".zfs", "snapshot"] then some ["s1"] else none
  probe := fun p =>
    if p = ["sd", ".zfs", "snapshot", "s1", "f"] then some (1, 1) else none

/-- Fixture: user-defined snapshot root `/sd` and live root `/ld`, with
the alternate-replica search enabled and live versions retained. -/
def exConfig1 : Config :=
  Config.mk (SnapPoint.UserDefined (DefinedDirs.mk ["sd"] ["ld"])) true false

/-- Fixture: the live input path `/ld/f`, existing live. -/
def exPD1 : PathData := PathData.mk ["ld", "f"] 5 5 false

/-- Fixture: the snapshot version of `/ld/f` found under snapshot `s1`. -/
def exV1 : PathData := PathData.mk ["sd", ".zfs", "snapshot", "s1", "f"] 1 1 false

/-- Fixture: a filesystem on which every listing and every probe fails. -/
def exFSnone : FS where
  readDir := fun _ => none
  probe := fun _ => none

/-- Fixture: user-defined directories with live versions suppressed. -/
def exConfig2 : Config :=
  Config.mk (SnapPoint.UserDefined (DefinedDirs.mk ["sd"] ["ld"])) false true

/-- Fixture: a live input path that exists (is not phantom). -/
def exLive2 : PathData := PathData.mk ["ld", "f"] 7 7 false

/-- Fixture: user-defined directories, no alternate pass, live retained. -/
def exConfig9 : Config :=
  Config.mk (SnapPoint.UserDefined (DefinedDirs.mk ["sd"] ["ld"])) false false

/-- Fixture: three snapshots of `f` under the root `/r`, two of which
carry the identical fingerprint `(5, 10)` and one the older `(3, 7)`. -/
def exFS7 : FS where
  readDir := fun p => if p = ["r"] then some ["s1", "s2", "s3"] else none
  probe := fun p =>
    if p = ["r", "s1", "f"] then some (5, 10)
    else if p = ["r", "s2", "f"] then some (5, 10)
    else if p = ["r", "s3", "f"] then some (3, 7)
    else none

/-- Fixture for deleted-file detection: live directory `/live` holding
`{a, b}`, snapshots `s1 ↦ {a, b, c}` and `s2 ↦ {a, c, d}` under `/r`,
where the two deleted files `c` and `d` share the fingerprint `(3, 3)`. -/
def exFS4 : FS where
  readDir := fun p =>
    if p = ["live"] then some ["a", "b"]
    else if p = ["r"] then some ["s1", "s2"]
    else if p = ["r", "s1"] then some ["a", "b", "c"]
    else if p = ["r", "s2"] then some ["a", "c", "d"]
    else none
  probe := fun p =>
    if p = ["r", "s2", "c"] then some (3, 3)
    else if p = ["r", "s2", "d"] then some (3, 3)
    else none

/-- Fixture: as `exFS4` but the deleted files `c` and `d` carry distinct
fingerprints `(3, 3)` and `(4, 4)`. -/
def exFS4b : FS where
  readDir := fun p =>
    if p = ["live"] then some ["a", "b"]
    else if p = ["r"] then some ["s1", "s2"]
    else if p = ["r", "s1"] then some ["a", "b", "c"]
    else if p = ["r", "s2"] then some ["a", "c", "d"]
    else none
  probe := fun p =>
    if p = ["r", "s2", "c"] then some (3, 3)
    else if p = ["r", "s2", "d"] then some (4, 4)
    else none

/-! ### Helper lemmas about the container models -/

theorem mem_of_mem_dedupByKeyLast {α κ : Type} [DecidableEq κ] {key : α → κ}
    {l : List α} {x : α} (h : x ∈ dedupByKeyLast key l) : x ∈ l := by
  induction l with
  | nil => simp [dedupByKeyLast] at h
  | cons a as ih =>
    by_cases hk : key a ∈ as.map key
    · simp only [dedupByKeyLast, if_pos hk] at h
      exact List.mem_cons_of_mem a (ih h)
    · simp only [dedupByKeyLast, if_neg hk, List.mem_cons] at h
      cases h with
      | inl h => exact h ▸ List.mem_cons_self a as
      | inr h => exact List.mem_cons_of_mem a (ih h)

theorem mem_map_key_dedupByKeyLast {α κ : Type} [DecidableEq κ] (key : α → κ)
    (l : List α) (k : κ) :
    k ∈ (dedupByKeyLast key l).map key ↔ k ∈ l.map key := by
  induction l with
  | nil => simp [dedupByKeyLast]
  | cons a as ih =>
    by_cases hk : key a ∈ as.map key
    · simp only [dedupByKeyLast, if_pos hk, List.map_cons, List.mem_cons, ih]
      constructor
      · exact Or.inr
      · rintro (rfl | h)
        · exact hk
        · exact h
    · simp only [dedupByKeyLast, if_neg hk, List.map_cons, List.mem_cons, ih]

theorem nodup_map_key_dedupByKeyLast {α κ : Type} [DecidableEq κ] (key : α → κ)
    (l : List α) : ((dedupByKeyLast key l).map key).Nodup := by
  induction l with
  | nil => simp [dedupByKeyLast]
  | cons a as ih =>
    by_cases hk : key a ∈ as.map key
    · simpa only [dedupByKeyLast, if_pos hk] using ih
    · simp only [dedupByKeyLast, if_neg hk, List.map_cons, List.nodup_cons]
      exact ⟨fun hmem => hk ((mem_map_key_dedupByKeyLast key as (key a)).mp hmem), ih⟩

theorem dedupByKeyLast_eq_self {α κ : Type} [DecidableEq κ] {key : α → κ}
    {l : List α} (h : (l.map key).Nodup) : dedupByKeyLast key l = l := by
  induction l with
  | nil => simp [dedupByKeyLast]
  | cons a as ih =>
    simp only [List.map_cons, List.nodup_cons] at h
    simp only [dedupByKeyLast, if_neg h.1, ih h.2]

theorem dedupByKeyLast_cons {α κ : Type} [DecidableEq κ] (key : α → κ)
    (a : α) (as : List α) :
    dedupByKeyLast key (a :: as) =
      if key a ∈ as.map key then dedupByKeyLast key as
      else a :: dedupByKeyLast key as := rfl

theorem map_key_dedupByKeyLast {α κ : Type} [DecidableEq κ] (key : α → κ)
    (l : List α) :
    (dedupByKeyLast key l).map key = dedupByKeyLast id (l.map key) := by
  induction l with
  | nil => simp [dedupByKeyLast]
  | cons a as ih =>
    by_cases hk : key a ∈ as.map key
    · rw [dedupByKeyLast_cons, if_pos hk, ih, List.map_cons, dedupByKeyLast_cons]
      simp [hk]
    · rw [dedupByKeyLast_cons, if_neg hk, List.map_cons, List.map_cons, ih,
        dedupByKeyLast_cons]
      simp [hk]

theorem mem_dedupByKeyLast_id {κ : Type} [DecidableEq κ] (l : List κ) (k : κ) :
    k ∈ dedupByKeyLast id l ↔ k ∈ l := by
  have h := mem_map_key_dedupByKeyLast (α := κ) (κ := κ) id l k
  simpa [List.map_id] using h

theorem maxByKeyLast_eq_none {α : Type} {key : α → Nat} :
    ∀ {l : List α}, maxByKeyLast key l = none → l = []
  | [], _ => rfl
  | a :: as, h => by
    simp only [maxByKeyLast] at h
    split at h
    · exact absurd h (by simp)
    · split at h <;> exact absurd h (by simp)

theorem maxByKeyLast_mem {α : Type} {key : α → Nat} {l : List α} {x : α}
    (h : maxByKeyLast key l = some x) : x ∈ l := by
  induction l generalizing x with
  | nil => simp [maxByKeyLast] at h
  | cons a as ih =>
    simp only [maxByKeyLast] at h
    split at h
    · injection h with h
      exact h ▸ List.mem_cons_self a as
    · rename_i b hb
      split at h
      · injection h with h
        exact List.mem_cons_of_mem a (h ▸ ih hb)
      · injection h with h
        exact h ▸ List.mem_cons_self a as

theorem maxByKeyLast_le {α : Type} {key : α → Nat} {l : List α} {x : α}
    (h : maxByKeyLast key l = some x) : ∀ y ∈ l, key y ≤ key x := by
  induction l generalizing x with
  | nil => simp [maxByKeyLast] at h
  | cons a as ih =>
    intro y hy
    simp only [maxByKeyLast] at h
    split at h
    · rename_i hnone
      have : as = [] := maxByKeyLast_eq_none hnone
      subst this
      injection h with h
      subst h
      simp only [List.mem_singleton] at hy
      exact hy ▸ Nat.le_refl _
    · rename_i b hb
      split at h
      · rename_i hle
        injection h with h
        subst h
        rcases List.mem_cons.mp hy with rfl | hmem
        · exact hle
        · exact ih hb y hmem
      · rename_i hgt
        injection h with h
        subst h
        rcases List.mem_cons.mp hy with rfl | hmem
        · exact Nat.le_refl _
        · exact Nat.le_trans (ih hb y hmem) (Nat.le_of_lt (Nat.lt_of_not_le hgt))

theorem maxByKeyLast_of_ne_nil {α : Type} (key : α → Nat) {l : List α}
    (h : l ≠ []) : ∃ x, maxByKeyLast key l = some x := by
  cases hm : maxByKeyLast key l with
  | none => exact absurd (maxByKeyLast_eq_none hm) h
  | some x => exact ⟨x, rfl⟩

theorem stripPrefixOf_eq_some {p pre r : FsPath}
    (h : stripPrefixOf p pre = some r) : pre ++ r = p := by
  unfold stripPrefixOf at h
  by_cases hp : pre.isPrefixOf p
  · rw [if_pos hp] at h
    injection h with h
    obtain ⟨t, rfl⟩ := List.isPrefixOf_iff_prefix.mp hp
    rw [← h, List.drop_left]
  · rw [if_neg hp] at h
    exact absurd h (by simp)

theorem sortByTime_perm (l : List PathData) : List.Perm (sortByTime l) l :=
  List.perm_insertionSort timeLE l

theorem sortByTime_sorted (l : List PathData) : (sortByTime l).Sorted timeLE :=
  List.sorted_insertionSort timeLE l

theorem lastName_append (l : FsPath) (n : String) : lastName (l ++ [n]) = n :=
  List.getLastD_concat _ _ _

/-! ### Program-level helper lemmas -/

theorem get_versions_ok_eq (fs : FS) (sd : FsPath × FsPath) {entries : List String}
    (hd : fs.readDir sd.1 = some entries) :
    get_versions fs sd = Except.ok (sortByTime (dedupByKeyLast fingerprint
      (version_probes fs sd.1 sd.2 entries))) := by
  unfold get_versions
  rw [hd]

theorem get_versions_ok_nodup {fs : FS} {sd : FsPath × FsPath}
    {vs : List PathData} (h : get_versions fs sd = Except.ok vs) :
    (vs.map fingerprint).Nodup := by
  unfold get_versions at h
  cases hd : fs.readDir sd.1 with
  | none => rw [hd] at h; exact absurd h (by simp)
  | some entries =>
    rw [hd] at h
    injection h with h
    subst h
    have hperm : List.Perm
        ((sortByTime (dedupByKeyLast fingerprint
          (version_probes fs sd.1 sd.2 entries))).map fingerprint)
        ((dedupByKeyLast fingerprint
          (version_probes fs sd.1 sd.2 entries)).map fingerprint) :=
      (sortByTime_perm _).map fingerprint
    exact hperm.nodup_iff.mpr (nodup_map_key_dedupByKeyLast fingerprint _)

theorem get_alt_replicated_snd {imm : FsPath} {mc : List (String × FsPath)}
    {pr : FsPath × FsPath}
    (h : get_alt_replicated_dataset imm mc = Except.ok pr) : pr.2 = imm := by
  unfold get_alt_replicated_dataset at h
  simp only [] at h
  split at h
  · split at h
    · split at h
      · exact absurd h (by simp)
      · injection h with h
        rw [← h]
    · exact absurd h (by simp)
  · exact absurd h (by simp)

theorem get_search_dirs_userdefined_flag {config : Config} {dd : DefinedDirs}
    (hsp : config.snap_point = SnapPoint.UserDefined dd) (pd : PathData)
    (b : Bool) : get_search_dirs config pd b = get_search_dirs config pd false := by
  unfold get_search_dirs
  rw [hsp]

/-! ### Claim C3: the dataset resolver returns the longest prefixing mount -/

/-- C3: whenever `get_immediate_dataset` succeeds, the returned mount point
is a (strict or equal) path-prefix of the path's parent directory and no
mount point of the table that also prefixes the parent has a longer
mount-point string; when no mount point prefixes the parent, it fails with
`noQualifyingDataset`. -/
theorem C3_resolver_longest_mount (pd : PathData)
    (mc : List (String × FsPath)) :
    (∀ m, get_immediate_dataset pd mc = Except.ok m →
      m <+: pd.path_buf.dropLast ∧
      ∀ e ∈ mc, e.2 <+: pd.path_buf.dropLast →
        pathStrLen e.2 ≤ pathStrLen m) ∧
    ((∀ e ∈ mc, ¬ e.2 <+: pd.path_buf.dropLast) →
      get_immediate_dataset pd mc = Except.error HttmError.noQualifyingDataset) := by
  constructor
  · intro m hm
    unfold get_immediate_dataset at hm
    simp only [] at hm
    split at hm
    · exact absurd hm (by simp)
    · split at hm
      · rename_i bpmp hb
        injection hm with hm
        subst hm
        constructor
        · have hmem := maxByKeyLast_mem hb
          have hsplit := List.mem_filter.mp hmem
          exact List.isPrefixOf_iff_prefix.mp hsplit.2
        · intro e he hpre
          refine maxByKeyLast_le hb e.2 ?_
          exact List.mem_filter.mpr
            ⟨List.mem_map_of_mem _ he, List.isPrefixOf_iff_prefix.mpr hpre⟩
      · exact absurd hm (by simp)
  · intro hno
    unfold get_immediate_dataset
    simp only []
    have hpot : (mc.map (fun e => e.2)).filter
        (fun line => line.isPrefixOf pd.path_buf.dropLast) = [] := by
      rw [List.filter_eq_nil_iff]
      intro a ha
      obtain ⟨e, he, rfl⟩ := List.mem_map.mp ha
      intro hcontra
      exact hno e he (List.isPrefixOf_iff_prefix.mp hcontra)
    rw [hpot]
    simp

/-- C3 witness: on the table `[/u ↦ rpool, /u/b ↦ rbin]` and path
`/u/b/f`, the resolver returns `/u/b`, which prefixes the parent `/u/b`
and is at least as long as every other prefixing mount. -/
theorem C3_witness :
    get_immediate_dataset (PathData.mk ["u", "b", "f"] 0 0 false)
      [("rpool", ["u"]), ("rbin", ["u", "b"])] = Except.ok ["u", "b"] ∧
    (["u", "b"] : FsPath) <+:
      (PathData.mk ["u", "b", "f"] 0 0 false).path_buf.dropLast ∧
    ∀ e ∈ [("rpool", (["u"] : FsPath)), ("rbin", ["u", "b"])],
      e.2 <+: (PathData.mk ["u", "b", "f"] 0 0 false).path_buf.dropLast →
        pathStrLen e.2 ≤ pathStrLen ["u", "b"] := by
  refine ⟨by decide, ?_⟩
  have h := (C3_resolver_longest_mount (PathData.mk ["u", "b", "f"] 0 0 false)
    [("rpool", ["u"]), ("rbin", ["u", "b"])]).1 ["u", "b"] (by decide)
  exact h

/-! ### Claim C6: resolving a dataset's own mount point -/

/-- C6 counterexample: with the table containing exactly one dataset
mounted at `/a`, resolving the path `/a` itself fails with
`noQualifyingDataset`, because the filter runs on the parent directory
`/`, which `/a` does not prefix. -/
theorem C6_counterexample :
    get_immediate_dataset (PathData.mk ["a"] 0 0 false) [("tank", ["a"])] =
      Except.error HttmError.noQualifyingDataset := by decide

/-- C6 (amended): the parent computation is total (the root's parent is
the root itself), and resolving a path — in particular a dataset's own
mount point — succeeds whenever some mount point in the table is a
path-prefix of the path's parent directory. -/
theorem C6_mountpoint_resolves (pd : PathData) (mc : List (String × FsPath))
    (e : String × FsPath) (he : e ∈ mc)
    (hpre : e.2 <+: pd.path_buf.dropLast) :
    ∃ m, get_immediate_dataset pd mc = Except.ok m := by
  unfold get_immediate_dataset
  simp only []
  have hmem : e.2 ∈ (mc.map (fun x => x.2)).filter
      (fun line => line.isPrefixOf pd.path_buf.dropLast) :=
    List.mem_filter.mpr
      ⟨List.mem_map_of_mem _ he, List.isPrefixOf_iff_prefix.mpr hpre⟩
  have hne : (mc.map (fun x => x.2)).filter
      (fun line => line.isPrefixOf pd.path_buf.dropLast) ≠ [] :=
    List.ne_nil_of_mem hmem
  rw [if_neg (by simpa using hne)]
  obtain ⟨x, hx⟩ := maxByKeyLast_of_ne_nil pathStrLen hne
  rw [hx]
  exact ⟨x, rfl⟩

/-- C6 witness: the table holds a dataset mounted at `/a` and a root
dataset; resolving the mount point `/a` itself succeeds (the root mount
prefixes the parent `/`). -/
theorem C6_witness :
    ("rpool", ([] : FsPath)) ∈ [("rpool", ([] : FsPath)), ("tank", ["a"])] ∧
    ([] : FsPath) <+: (PathData.mk ["a"] 0 0 false).path_buf.dropLast ∧
    ∃ m, get_immediate_dataset (PathData.mk ["a"] 0 0 false)
      [("rpool", []), ("tank", ["a"])] = Except.ok m :=
  ⟨by decide, by decide,
    C6_mountpoint_resolves (PathData.mk ["a"] 0 0 false)
      [("rpool", []), ("tank", ["a"])] ("rpool", []) (by decide) (by decide)⟩

/-! ### Claim C5: the alternate-replica resolver never returns its input -/

/-- C5: a successful `get_alt_replicated_dataset` returns a mount point
different from the input whose dataset identifier ends with the input's
identifier and is longest among all such identifiers in the reverse
index (the second component being the input mount point); every failure
is `noAlternateReplica`. -/
theorem C5_alt_never_self (imm : FsPath) (mc : List (String × FsPath)) :
    (∀ alt ret, get_alt_replicated_dataset imm mc = Except.ok (alt, ret) →
      alt ≠ imm ∧ ret = imm ∧
      ∃ immFs altFs,
        lookupAssoc (reverse_index mc) imm = some immFs ∧
        (alt, altFs) ∈ reverse_index mc ∧
        strEndsWith altFs immFs = true ∧
        ∀ e ∈ reverse_index mc, strEndsWith e.2 immFs = true →
          e.2.length ≤ altFs.length) ∧
    (∀ err, get_alt_replicated_dataset imm mc = Except.error err →
      err = HttmError.noAlternateReplica) := by
  constructor
  · intro alt ret h
    unfold get_alt_replicated_dataset at h
    simp only [] at h
    split at h
    · rename_i immFs hlk
      split at h
      · rename_i ap hmax
        split at h
        · exact absurd h (by simp)
        · rename_i hne
          injection h with h
          have h1 : ap.1 = alt := congrArg Prod.fst h
          have h2 : imm = ret := congrArg Prod.snd h
          obtain ⟨hm, hp⟩ := List.mem_filter.mp (maxByKeyLast_mem hmax)
          refine ⟨?_, h2.symm, immFs, ap.2, hlk, ?_, hp, ?_⟩
          · rw [← h1]
            exact hne
          · rw [← h1]
            exact hm
          · intro e he hends
            exact maxByKeyLast_le hmax e (List.mem_filter.mpr ⟨he, hends⟩)
      · exact absurd h (by simp)
    · exact absurd h (by simp)
  · intro err h
    unfold get_alt_replicated_dataset at h
    simp only [] at h
    split at h
    · split at h
      · split at h
        · injection h with h
          exact h.symm
        · exact absurd h (by simp)
      · injection h with h
        exact h.symm
    · injection h with h
      exact h.symm

/-- C5 witness: with `rpool` mounted at `/rp` and its replica
`tank/rpool` mounted at `/tk/rp`, resolving `/rp` yields `/tk/rp`, a
mount point different from the input, whose identifier ends with `rpool`
and is the longest such identifier. -/
theorem C5_witness :
    (["tk", "rp"] : FsPath) ≠ ["rp"] ∧ (["rp"] : FsPath) = ["rp"] ∧
    ∃ immFs altFs,
      lookupAssoc (reverse_index
        [("rpool", ["rp"]), ("tank/rpool", ["tk", "rp"])]) ["rp"] =
          some immFs ∧
      ((["tk", "rp"] : FsPath), altFs) ∈ reverse_index
        [("rpool", ["rp"]), ("tank/rpool", ["tk", "rp"])] ∧
      strEndsWith altFs immFs = true ∧
      ∀ e ∈ reverse_index [("rpool", ["rp"]), ("tank/rpool", ["tk", "rp"])],
        strEndsWith e.2 immFs = true → e.2.length ≤ altFs.length :=
  (C5_alt_never_self ["rp"]
    [("rpool", ["rp"]), ("tank/rpool", ["tk", "rp"])]).1
    ["tk", "rp"] ["rp"] (by decide)

/-! ### Claim C8: round-trip of the stripped relative path -/

theorem get_search_dirs_userdefined_ok {config : Config} {dd : DefinedDirs}
    (hsp : config.snap_point = SnapPoint.UserDefined dd) {pd : PathData}
    {b : Bool} {root rel : FsPath}
    (h : get_search_dirs config pd b = Except.ok (root, rel)) :
    stripPrefixOf pd.path_buf dd.local_dir = some rel := by
  unfold get_search_dirs at h
  rw [hsp] at h
  simp only [] at h
  split at h
  · rename_i lp hlp
    injection h with h
    rw [Prod.mk.injEq] at h
    exact h.2 ▸ hlp
  · exact absurd h (by simp)

theorem get_search_dirs_native_ok {config : Config}
    {mc : List (String × FsPath)}
    (hsp : config.snap_point = SnapPoint.Native mc) {pd : PathData}
    {b : Bool} {root rel : FsPath}
    (h : get_search_dirs config pd b = Except.ok (root, rel)) :
    ∃ imm, get_immediate_dataset pd mc = Except.ok imm ∧
      stripPrefixOf pd.path_buf imm = some rel := by
  unfold get_search_dirs at h
  rw [hsp] at h
  simp only [] at h
  split at h
  · exact absurd h (by simp)
  · rename_i dataset immediate hpair
    split at h
    · rename_i lp hlp
      injection h with h
      rw [Prod.mk.injEq] at h
      split at hpair
      · exact absurd hpair (by simp)
      · rename_i imm hgi
        refine ⟨imm, hgi, ?_⟩
        cases b with
        | false =>
          simp only [Bool.false_eq_true, if_false] at hpair
          injection hpair with hpair
          rw [Prod.mk.injEq] at hpair
          rw [← h.2, hpair.2]
          exact hlp
        | true =>
          rw [if_pos rfl] at hpair
          have hsnd : immediate = imm := by
            have := get_alt_replicated_snd hpair
            exact this
          rw [← h.2, ← hsnd]
          exact hlp
    · exact absurd h (by simp)

/-- C8: whenever `get_search_dirs` succeeds with `(root, rel)`, joining
the mount point used for stripping — the immediate mount point in
`Native` mode (even when resolving the alternate replica, i.e. for either
flag value), `local_dir` in `UserDefined` mode — with `rel` reconstructs
the original live path. -/
theorem C8_roundtrip (config : Config) (pd : PathData) (b : Bool)
    (root rel : FsPath)
    (h : get_search_dirs config pd b = Except.ok (root, rel)) :
    (∀ dd, config.snap_point = SnapPoint.UserDefined dd →
      dd.local_dir ++ rel = pd.path_buf) ∧
    (∀ mc, config.snap_point = SnapPoint.Native mc →
      ∃ imm, get_immediate_dataset pd mc = Except.ok imm ∧
        imm ++ rel = pd.path_buf) := by
  constructor
  · intro dd hdd
    exact stripPrefixOf_eq_some (get_search_dirs_userdefined_ok hdd h)
  · intro mc hmc
    obtain ⟨imm, h1, h2⟩ := get_search_dirs_native_ok hmc h
    exact ⟨imm, h1, stripPrefixOf_eq_some h2⟩

/-- C8 witness: searching the alternate replica of `/rp` for the live
path `/rp/f` strips the immediate mount point `/rp` (not the replica's
`/tk/rp`), and joining `/rp` with the relative path `f` reconstructs
`/rp/f`. -/
theorem C8_witness :
    get_search_dirs
      (Config.mk (SnapPoint.Native
        [("rpool", ["rp"]), ("tank/rpool", ["tk", "rp"])]) true false)
      (PathData.mk ["rp", "f"] 0 0 false) true =
      Except.ok (["tk", "rp", ".zfs", "snapshot"], ["f"]) ∧
    ∃ imm, get_immediate_dataset (PathData.mk ["rp", "f"] 0 0 false)
        [("rpool", ["rp"]), ("tank/rpool", ["tk", "rp"])] =
          Except.ok imm ∧
      imm ++ ["f"] = (PathData.mk ["rp", "f"] 0 0 false).path_buf :=
  ⟨by decide,
    (C8_roundtrip
      (Config.mk (SnapPoint.Native
        [("rpool", ["rp"]), ("tank/rpool", ["tk", "rp"])]) true false)
      (PathData.mk ["rp", "f"] 0 0 false) true
      ["tk", "rp", ".zfs", "snapshot"] ["f"] (by decide)).2
      [("rpool", ["rp"]), ("tank/rpool", ["tk", "rp"])] rfl⟩

/-! ### More program-level helper lemmas -/

theorem lookup_exec_eq (fs : FS) (config : Config) (pds : List PathData) :
    lookup_exec fs config pds =
      if (all_snaps fs config pds).isEmpty &&
          (live_versions_of config pds).all (fun i => i.is_phantom) then
        Except.error HttmError.noVersionsFound
      else
        Except.ok (all_snaps fs config pds, live_versions_of config pds) := rfl

theorem except_toOption_eq_some {ε α : Type} {e : Except ε α} {a : α}
    (h : e.toOption = some a) : e = Except.ok a := by
  cases e with
  | error err => simp [Except.toOption] at h
  | ok b =>
    simp [Except.toOption] at h
    rw [h]

theorem PathData_fromPath_path_buf (fs : FS) (p : FsPath) :
    (PathData.fromPath fs p).path_buf = p := by
  cases h : fs.probe p with
  | none => simp [PathData.fromPath, h]
  | some ts =>
    obtain ⟨t, sz⟩ := ts
    simp [PathData.fromPath, h]

theorem get_deleted_per_dataset_ok_eq (fs : FS) (path : FsPath)
    (sd : FsPath × FsPath) {liveNames snapNames : List String}
    (h1 : fs.readDir path = some liveNames)
    (h2 : fs.readDir sd.1 = some snapNames) :
    get_deleted_per_dataset fs path sd = Except.ok (sortByTime
      (dedupByKeyLast fingerprint (deleted_candidates fs liveNames
        (snap_files_of fs sd.1 sd.2 snapNames)))) := by
  unfold get_deleted_per_dataset
  rw [h1, h2]

theorem snap_files_of_snd {fs : FS} {root rel : FsPath}
    {snapNames : List String} :
    ∀ e ∈ snap_files_of fs root rel snapNames, ∃ d, e.2 = d ++ [e.1] := by
  intro e he
  unfold snap_files_of at he
  rw [List.mem_flatten] at he
  obtain ⟨l, hl, hel⟩ := he
  rw [List.mem_map] at hl
  obtain ⟨snm, hs, rfl⟩ := hl
  simp only [] at hel
  cases hrd : fs.readDir (root ++ [snm] ++ rel) with
  | none =>
    rw [hrd] at hel
    simp at hel
  | some ns =>
    rw [hrd] at hel
    obtain ⟨n, hn, rfl⟩ := List.mem_map.mp hel
    exact ⟨root ++ [snm] ++ rel, rfl⟩

theorem map_fst_filter_not_live {liveNames : List String}
    (l : List (String × FsPath)) :
    ((l.filter
      (fun e => !(decide (e.1 ∈ dedupByKeyLast id liveNames)))).map Prod.fst)
      = (l.map Prod.fst).filter
        (fun n => !(decide (n ∈ dedupByKeyLast id liveNames))) := by
  induction l with
  | nil => rfl
  | cons a as ih =>
    by_cases hp : a.1 ∈ dedupByKeyLast id liveNames <;> simp [hp, ih]

theorem dedupByKeyLast_sublist {α κ : Type} [DecidableEq κ] (key : α → κ) :
    ∀ l : List α, List.Sublist (dedupByKeyLast key l) l
  | [] => List.Sublist.refl []
  | a :: as => by
    rw [dedupByKeyLast_cons]
    by_cases hk : key a ∈ as.map key
    · rw [if_pos hk]
      exact List.Sublist.cons a (dedupByKeyLast_sublist key as)
    · rw [if_neg hk]
      exact List.Sublist.cons₂ a (dedupByKeyLast_sublist key as)

theorem except_toOption_error {ε α : Type} (e : ε) :
    (Except.error e : Except ε α).toOption = none := rfl

theorem except_toOption_ok {ε α : Type} (a : α) :
    (Except.ok a : Except ε α).toOption = some a := rfl

theorem two_pass_flatten (fs : FS) (config : Config) (pd : PathData) :
    ((([get_search_dirs config pd true,
        get_search_dirs config pd false].filterMap Except.toOption).filterMap
        (fun sd => (get_versions fs sd).toOption)).flatten)
      = pass_versions fs config pd true ++ pass_versions fs config pd false := by
  unfold pass_versions
  cases h1 : get_search_dirs config pd true with
  | error a =>
    cases h2 : get_search_dirs config pd false with
    | error b => simp [except_toOption_error, except_toOption_ok]
    | ok sd2 =>
      cases hv : (get_versions fs sd2).toOption with
      | none => simp [except_toOption_error, except_toOption_ok, hv]
      | some vs => simp [except_toOption_error, except_toOption_ok, hv]
  | ok sd1 =>
    cases h2 : get_search_dirs config pd false with
    | error b =>
      cases hv : (get_versions fs sd1).toOption with
      | none => simp [except_toOption_error, except_toOption_ok, hv]
      | some vs => simp [except_toOption_error, except_toOption_ok, hv]
    | ok sd2 =>
      cases hv1 : (get_versions fs sd1).toOption with
      | none =>
        cases hv2 : (get_versions fs sd2).toOption with
        | none => simp [except_toOption_error, except_toOption_ok, hv1, hv2]
        | some vs2 => simp [except_toOption_error, except_toOption_ok, hv1, hv2]
      | some vs1 =>
        cases hv2 : (get_versions fs sd2).toOption with
        | none => simp [except_toOption_error, except_toOption_ok, hv1, hv2]
        | some vs2 => simp [except_toOption_error, except_toOption_ok, hv1, hv2]

theorem all_snaps_alt_eq (fs : FS) (config : Config)
    (halt : config.opt_alt_replicated = true) (pds : List PathData) :
    all_snaps fs config pds = (pds.map (fun pd =>
      pass_versions fs config pd true ++
        pass_versions fs config pd false)).flatten := by
  unfold all_snaps
  rw [halt, if_pos rfl]
  induction pds with
  | nil => rfl
  | cons pd pds ih =>
    simp only [List.map_cons, List.flatten_cons, List.filterMap_append,
      List.flatten_append]
    rw [ih]
    congr 1
    exact two_pass_flatten fs config pd

theorem pass_versions_nodup (fs : FS) (config : Config) (pd : PathData)
    (b : Bool) : ((pass_versions fs config pd b).map fingerprint).Nodup := by
  unfold pass_versions
  cases hs : (get_search_dirs config pd b).toOption with
  | none => simp
  | some sd =>
    simp only [Option.some_bind]
    cases hv : (get_versions fs sd).toOption with
    | none => simp
    | some vs =>
      simp only [Option.getD_some]
      exact get_versions_ok_nodup (except_toOption_eq_some hv)

/-! ### Claim C7: version enumeration deduplicates and sorts -/

/-- C7: a successful `get_versions` run returns one entry per distinct
`(modification_time, size)` fingerprint among the non-phantom snapshot
probes (each returned entry being one of those probes), sorted ascending
by modification time. -/
theorem C7_versions_dedup_sorted (fs : FS) (root rel : FsPath)
    (entries : List String) (vs : List PathData)
    (hd : fs.readDir root = some entries)
    (hv : get_versions fs (root, rel) = Except.ok vs) :
    List.Perm (vs.map fingerprint)
      (dedupByKeyLast id
        ((version_probes fs root rel entries).map fingerprint)) ∧
    (∀ pd ∈ vs, pd ∈ version_probes fs root rel entries) ∧
    vs.Sorted timeLE := by
  rw [get_versions_ok_eq fs (root, rel) hd] at hv
  injection hv with hv
  subst hv
  refine ⟨?_, ?_, sortByTime_sorted _⟩
  · have hperm :=
      (sortByTime_perm (dedupByKeyLast fingerprint
        (version_probes fs root rel entries))).map fingerprint
    rw [map_key_dedupByKeyLast] at hperm
    exact hperm
  · intro pd hpd
    exact mem_of_mem_dedupByKeyLast ((sortByTime_perm _).mem_iff.mp hpd)

/-- C7 witness: of the three snapshot probes of fingerprints `(5, 10)`,
`(5, 10)` and `(3, 7)`, exactly two versions are emitted, in ascending
time order. -/
theorem C7_witness :
    List.Perm
      (([PathData.mk ["r", "s3", "f"] 3 7 false,
         PathData.mk ["r", "s2", "f"] 5 10 false] : List PathData).map
            fingerprint)
      (dedupByKeyLast id
        ((version_probes exFS7 ["r"] ["f"] ["s1", "s2", "s3"]).map
          fingerprint)) ∧
    (∀ pd ∈ ([PathData.mk ["r", "s3", "f"] 3 7 false,
        PathData.mk ["r", "s2", "f"] 5 10 false] : List PathData),
      pd ∈ version_probes exFS7 ["r"] ["f"] ["s1", "s2", "s3"]) ∧
    ([PathData.mk ["r", "s3", "f"] 3 7 false,
      PathData.mk ["r", "s2", "f"] 5 10 false] : List PathData).Sorted
        timeLE :=
  C7_versions_dedup_sorted exFS7 ["r"] ["f"] ["s1", "s2", "s3"]
    [PathData.mk ["r", "s3", "f"] 3 7 false,
     PathData.mk ["r", "s2", "f"] 5 10 false] (by decide) (by decide)

/-! ### Claim C2: the noVersionsFound condition -/

/-- C2 counterexample: with live versions suppressed
(`opt_no_live_vers = true`) and a filesystem holding no snapshots,
`lookup_exec` fails with `noVersionsFound` even though the input path
exists live (is not phantom), refuting the claimed equivalence. -/
theorem C2_counterexample :
    lookup_exec exFSnone exConfig2 [exLive2] =
      Except.error HttmError.noVersionsFound ∧
    exLive2.is_phantom = false := by decide

/-- C2 (amended): `lookup_exec` fails — and then only with
`noVersionsFound` — iff the collected snapshot list is empty and every
*retained* live version is phantom, where the retained live versions are
the input paths when `opt_no_live_vers` is disabled and the empty list
when it is enabled; in particular, when live versions are retained and
some input path exists live, the lookup does not fail. -/
theorem C2_no_versions_found_iff (fs : FS) (config : Config)
    (pds : List PathData) :
    (lookup_exec fs config pds = Except.error HttmError.noVersionsFound ↔
      (all_snaps fs config pds = [] ∧
       ∀ pd ∈ live_versions_of config pds, pd.is_phantom = true)) ∧
    (config.opt_no_live_vers = false →
      ∀ pd ∈ pds, pd.is_phantom = false →
        ∀ e, lookup_exec fs config pds ≠ Except.error e) := by
  have hiff : lookup_exec fs config pds =
      Except.error HttmError.noVersionsFound ↔
      (all_snaps fs config pds = [] ∧
       ∀ pd ∈ live_versions_of config pds, pd.is_phantom = true) := by
    rw [lookup_exec_eq]
    by_cases hb : ((all_snaps fs config pds).isEmpty &&
        (live_versions_of config pds).all (fun i => i.is_phantom)) = true
    · rw [if_pos hb]
      obtain ⟨hb1, hb2⟩ := Bool.and_eq_true_iff.mp hb
      constructor
      · intro _
        exact ⟨List.isEmpty_iff.mp hb1,
          fun pd hpd => List.all_eq_true.mp hb2 pd hpd⟩
      · intro _
        rfl
    · rw [if_neg hb]
      constructor
      · intro hcontra
        exact absurd hcontra (by simp)
      · rintro ⟨hl1, hl2⟩
        refine absurd ?_ hb
        rw [Bool.and_eq_true_iff]
        exact ⟨List.isEmpty_iff.mpr hl1, List.all_eq_true.mpr hl2⟩
  refine ⟨hiff, ?_⟩
  intro hflag pd hpd hph e hcontra
  have herr : e = HttmError.noVersionsFound := by
    rw [lookup_exec_eq] at hcontra
    by_cases hb : ((all_snaps fs config pds).isEmpty &&
        (live_versions_of config pds).all (fun i => i.is_phantom)) = true
    · rw [if_pos hb] at hcontra
      injection hcontra with hcontra
      exact hcontra.symm
    · rw [if_neg hb] at hcontra
      exact absurd hcontra (by simp)
  subst herr
  have hmem : pd ∈ live_versions_of config pds := by
    unfold live_versions_of
    rw [hflag]
    simpa using hpd
  have := (hiff.mp hcontra).2 pd hmem
  rw [hph] at this
  exact absurd this (by simp)

/-- C2 witness: the amended equivalence instantiated at a concrete
configuration with live versions suppressed. -/
theorem C2_witness :
    lookup_exec exFSnone exConfig2 [exLive2] =
      Except.error HttmError.noVersionsFound ↔
      (all_snaps exFSnone exConfig2 [exLive2] = [] ∧
       ∀ pd ∈ live_versions_of exConfig2 [exLive2], pd.is_phantom = true) :=
  (C2_no_versions_found_iff exFSnone exConfig2 [exLive2]).1

/-! ### Claim C1: no second deduplication after merging the two passes -/

/-- C1 counterexample: with `opt_alt_replicated` enabled in `UserDefined`
mode, the immediate and alternate passes observe the same snapshot copy
of `/ld/f`, and `lookup_exec` returns it twice: the merged snapshot list
repeats the fingerprint `(1, 1)`, so no second deduplication happened. -/
theorem C1_counterexample :
    lookup_exec exFS1 exConfig1 [exPD1] =
      Except.ok ([exV1, exV1], [exPD1]) ∧
    ¬ (([exV1, exV1].map fingerprint).Nodup) := by decide

/-- C1 (amended): with `opt_alt_replicated` enabled, the snapshot
sequence returned by `lookup_exec` is, input path by input path, the
alternate-replica pass result followed by the immediate-dataset pass
result, joined by plain concatenation with no second deduplication pass —
while each per-pass `get_versions` result on its own contains at most one
element per `(modification_time, size)` fingerprint, so the merge may
repeat a fingerprint once per pass. -/
theorem C1_merge_is_concatenation (fs : FS) (config : Config)
    (pds : List PathData) (snaps live : List PathData)
    (halt : config.opt_alt_replicated = true)
    (h : lookup_exec fs config pds = Except.ok (snaps, live)) :
    snaps = (pds.map (fun pd =>
      pass_versions fs config pd true ++
        pass_versions fs config pd false)).flatten ∧
    ∀ pd b, ((pass_versions fs config pd b).map fingerprint).Nodup := by
  have hsnaps : snaps = all_snaps fs config pds := by
    rw [lookup_exec_eq] at h
    by_cases hb : ((all_snaps fs config pds).isEmpty &&
        (live_versions_of config pds).all (fun i => i.is_phantom)) = true
    · rw [if_pos hb] at h
      exact absurd h (by simp)
    · rw [if_neg hb] at h
      injection h with h
      rw [Prod.mk.injEq] at h
      exact h.1.symm
  constructor
  · rw [hsnaps]
    exact all_snaps_alt_eq fs config halt pds
  · intro pd b
    exact pass_versions_nodup fs config pd b

/-- C1 witness: at the concrete duplicate-producing run, the returned
snapshot list is the concatenation of the two passes of the single input
path — the same deduplicated singleton twice. -/
theorem C1_witness :
    ([exV1, exV1] : List PathData) = ([exPD1].map (fun pd =>
      pass_versions exFS1 exConfig1 pd true ++
        pass_versions exFS1 exConfig1 pd false)).flatten ∧
    ∀ pd b, ((pass_versions exFS1 exConfig1 pd b).map fingerprint).Nodup :=
  C1_merge_is_concatenation exFS1 exConfig1 [exPD1] [exV1, exV1] [exPD1]
    rfl (by decide)

/-! ### Claim C10: UserDefined mode ignores the alternate-replica flag -/

/-- C10: in `UserDefined` mode `get_search_dirs` returns the same pair
whether `for_alt_replicated` is true or false, so with
`opt_alt_replicated` enabled the snapshot collection of `lookup_exec`
enumerates the identical search directory twice per input path. -/
theorem C10_userdefined_ignores_flag (config : Config) (dd : DefinedDirs)
    (hsp : config.snap_point = SnapPoint.UserDefined dd) :
    (∀ pd b, get_search_dirs config pd b = get_search_dirs config pd false) ∧
    (∀ fs pds, config.opt_alt_replicated = true →
      all_snaps fs config pds =
        (((pds.map (fun pd =>
            [get_search_dirs config pd false,
             get_search_dirs config pd false])).flatten.filterMap
            Except.toOption).filterMap
            (fun sd => (get_versions fs sd).toOption)).flatten) := by
  refine ⟨fun pd b => get_search_dirs_userdefined_flag hsp pd b, ?_⟩
  intro fs pds halt
  unfold all_snaps
  rw [halt, if_pos rfl]
  have hmap : pds.map (fun pd =>
      [get_search_dirs config pd true, get_search_dirs config pd false]) =
      pds.map (fun pd =>
        [get_search_dirs config pd false, get_search_dirs config pd false]) :=
    List.map_congr_left (fun pd _ => by
      rw [get_search_dirs_userdefined_flag hsp pd true])
  rw [hmap]

/-- C10 witness: the flag-insensitivity and the doubled enumeration at a
concrete `UserDefined` configuration with the alternate pass enabled. -/
theorem C10_witness :
    get_search_dirs exConfig1 exPD1 true =
      get_search_dirs exConfig1 exPD1 false ∧
    all_snaps exFS1 exConfig1 [exPD1] =
      ((([exPD1].map (fun pd =>
          [get_search_dirs exConfig1 pd false,
           get_search_dirs exConfig1 pd false])).flatten.filterMap
          Except.toOption).filterMap
          (fun sd => (get_versions exFS1 sd).toOption)).flatten :=
  ⟨(C10_userdefined_ignores_flag exConfig1
      (DefinedDirs.mk ["sd"] ["ld"]) rfl).1 exPD1 true,
   (C10_userdefined_ignores_flag exConfig1
      (DefinedDirs.mk ["sd"] ["ld"]) rfl).2 exFS1 [exPD1] rfl⟩

/-! ### Claim C9: top-level listing failures are swallowed by get_deleted -/

/-- C9 counterexample: when listing the live directory fails,
`get_deleted_per_dataset` does fail, but `get_deleted` swallows that
error and returns an empty success to its caller instead of surfacing
the failure. -/
theorem C9_counterexample :
    exFSnone.readDir ["ld"] = none ∧
    get_deleted_per_dataset exFSnone ["ld"] (["sd", ".zfs", "snapshot"], []) =
      Except.error HttmError.ioError ∧
    get_deleted exFSnone exConfig9 ["ld"] = Except.ok [] := by decide

/-- C9 (amended): a failure to list the live directory or the hidden
snapshot root is fatal to `get_deleted_per_dataset`, which returns an
error; but `get_deleted` never surfaces any error to its caller — it
always succeeds, converting such per-dataset failures into an empty
contribution. -/
theorem C9_fatal_but_swallowed (fs : FS) (config : Config)
    (path root rel : FsPath) :
    ((fs.readDir path = none ∨ fs.readDir root = none) →
      get_deleted_per_dataset fs path (root, rel) =
        Except.error HttmError.ioError) ∧
    (∃ l, get_deleted fs config path = Except.ok l) := by
  constructor
  · intro h
    rcases h with h | h
    · unfold get_deleted_per_dataset
      rw [h]
    · unfold get_deleted_per_dataset
      cases hl : fs.readDir path with
      | none => rfl
      | some les =>
        rw [show fs.readDir ((root, rel) : FsPath × FsPath).1 = none from h]
  · exact ⟨_, rfl⟩

/-- C9 witness: the amended behaviour at the concrete all-failing
filesystem: the per-dataset search errors while `get_deleted` succeeds. -/
theorem C9_witness :
    get_deleted_per_dataset exFSnone ["ld"] (["sd", ".zfs", "snapshot"], ["x"]) =
      Except.error HttmError.ioError ∧
    ∃ l, get_deleted exFSnone exConfig9 ["ld"] = Except.ok l :=
  ⟨(C9_fatal_but_swallowed exFSnone exConfig9 ["ld"]
      ["sd", ".zfs", "snapshot"] ["x"]).1 (Or.inl (by decide)),
   (C9_fatal_but_swallowed exFSnone exConfig9 ["ld"]
      ["sd", ".zfs", "snapshot"] ["x"]).2⟩

/-! ### Claim C4: deleted-file detection as a set difference -/

/-- C4 counterexample: live `{a, b}` against snapshots `{a, b, c}` and
`{a, c, d}` where the deleted files `c` and `d` share one fingerprint:
the final fingerprint deduplication of `get_deleted_per_dataset` keeps a
single entry, so the result is not exactly `{c, d}` — the filename `c`
is a snapshot-only name yet has no entry in the result. -/
theorem C4_counterexample :
    get_deleted_per_dataset exFS4 ["live"] (["r"], []) =
      Except.ok [PathData.mk ["r", "s2", "d"] 3 3 false] ∧
    "c" ∈ (dedupByKeyLast id
        ((snap_files_of exFS4 ["r"] [] ["s1", "s2"]).map Prod.fst)).filter
        (fun n => !(decide (n ∈ ["a", "b"]))) ∧
    "c" ∉ [PathData.mk ["r", "s2", "d"] 3 3 false].map pdName := by decide

/-- C4 (amended): `get_deleted_per_dataset` returns entries drawn from
the snapshot-only filenames (each returned entry is named by a filename
that occurs in some snapshot listing and not in the live listing), with
at most one entry per filename and at most one per fingerprint,
unconditionally; provided the deleted candidates carry pairwise distinct
fingerprints, the returned filenames are exactly the distinct snapshot
filenames absent from the live listing, each exactly once. -/
theorem C4_deleted_exact_names (fs : FS) (path root rel : FsPath)
    (liveNames snapNames : List String) (result : List PathData)
    (h1 : fs.readDir path = some liveNames)
    (h2 : fs.readDir root = some snapNames)
    (h3 : get_deleted_per_dataset fs path (root, rel) = Except.ok result) :
    (∀ pd ∈ result,
      pdName pd ∈ (snap_files_of fs root rel snapNames).map Prod.fst ∧
      pdName pd ∉ liveNames) ∧
    (result.map pdName).Nodup ∧
    (result.map fingerprint).Nodup ∧
    (((deleted_candidates fs liveNames
        (snap_files_of fs root rel snapNames)).map fingerprint).Nodup →
      List.Perm (result.map pdName)
        ((dedupByKeyLast id
          ((snap_files_of fs root rel snapNames).map Prod.fst)).filter
          (fun n => !(decide (n ∈ liveNames))))) := by
  rw [get_deleted_per_dataset_ok_eq fs path (root, rel) h1 h2] at h3
  injection h3 with h3
  have hpoint : ∀ e ∈ (dedupByKeyLast Prod.fst
      (snap_files_of fs root rel snapNames)).filter
      (fun e => !(decide (e.1 ∈ dedupByKeyLast id liveNames))),
      pdName (PathData.fromPath fs e.2) = e.1 := by
    intro e he
    have hmem : e ∈ snap_files_of fs root rel snapNames :=
      mem_of_mem_dedupByKeyLast (List.mem_filter.mp he).1
    obtain ⟨d, hd⟩ := snap_files_of_snd e hmem
    unfold pdName
    rw [PathData_fromPath_path_buf, hd, lastName_append]
  have hnames : (deleted_candidates fs liveNames
      (snap_files_of fs root rel snapNames)).map pdName =
      (dedupByKeyLast id
        ((snap_files_of fs root rel snapNames).map Prod.fst)).filter
        (fun n => !(decide (n ∈ liveNames))) := by
    unfold deleted_candidates
    rw [List.map_map]
    simp only [Function.comp_def]
    rw [List.map_congr_left hpoint]
    rw [map_fst_filter_not_live]
    rw [map_key_dedupByKeyLast]
    refine List.filter_congr (fun n _ => ?_)
    congr 1
    rw [decide_eq_decide]
    exact mem_dedupByKeyLast_id liveNames n
  have hdd : (dedupByKeyLast id
      ((snap_files_of fs root rel snapNames).map Prod.fst)).Nodup := by
    have hnd := nodup_map_key_dedupByKeyLast (α := String) id
      ((snap_files_of fs root rel snapNames).map Prod.fst)
    rwa [List.map_id] at hnd
  have hRnodup : ((dedupByKeyLast id
      ((snap_files_of fs root rel snapNames).map Prod.fst)).filter
      (fun n => !(decide (n ∈ liveNames)))).Nodup :=
    List.Nodup.filter _ hdd
  have hcnodup : ((deleted_candidates fs liveNames
      (snap_files_of fs root rel snapNames)).map pdName).Nodup := by
    rw [hnames]
    exact hRnodup
  have hperm : List.Perm result (dedupByKeyLast fingerprint
      (deleted_candidates fs liveNames
        (snap_files_of fs root rel snapNames))) := by
    rw [← h3]
    exact sortByTime_perm _
  refine ⟨?_, ?_, ?_, ?_⟩
  · intro pd hpd
    have hpc : pd ∈ deleted_candidates fs liveNames
        (snap_files_of fs root rel snapNames) :=
      mem_of_mem_dedupByKeyLast (hperm.mem_iff.mp hpd)
    unfold deleted_candidates at hpc
    obtain ⟨e, he, heq⟩ := List.mem_map.mp hpc
    have hef := List.mem_filter.mp he
    have hname : pdName pd = e.1 := by
      rw [← heq]
      exact hpoint e he
    constructor
    · rw [hname]
      exact List.mem_map_of_mem Prod.fst (mem_of_mem_dedupByKeyLast hef.1)
    · rw [hname]
      intro hcontra
      have hmem2 : e.1 ∈ dedupByKeyLast id liveNames :=
        (mem_dedupByKeyLast_id liveNames e.1).mpr hcontra
      have hb := hef.2
      simp [hmem2] at hb
  · have hsperm := hperm.map pdName
    have hsubm : List.Sublist
        ((dedupByKeyLast fingerprint (deleted_candidates fs liveNames
          (snap_files_of fs root rel snapNames))).map pdName)
        ((deleted_candidates fs liveNames
          (snap_files_of fs root rel snapNames)).map pdName) :=
      (dedupByKeyLast_sublist fingerprint _).map pdName
    exact hsperm.nodup_iff.mpr (hcnodup.sublist hsubm)
  · have hfperm := hperm.map fingerprint
    exact hfperm.nodup_iff.mpr (nodup_map_key_dedupByKeyLast fingerprint _)
  · intro hdis
    have hperm2 : List.Perm result (deleted_candidates fs liveNames
        (snap_files_of fs root rel snapNames)) := by
      rw [dedupByKeyLast_eq_self hdis] at hperm
      exact hperm
    have hp := hperm2.map pdName
    rw [hnames] at hp
    exact hp

/-- C4 witness: with distinct fingerprints, the detector returns entries
for exactly the snapshot-only names `c` and `d`, each once, no duplicate
fingerprint, and the exactness permutation holds. -/
theorem C4_witness :
    (∀ pd ∈ ([PathData.mk ["r", "s2", "c"] 3 3 false,
        PathData.mk ["r", "s2", "d"] 4 4 false] : List PathData),
      pdName pd ∈ (snap_files_of exFS4b ["r"] [] ["s1", "s2"]).map Prod.fst ∧
      pdName pd ∉ ["a", "b"]) ∧
    (([PathData.mk ["r", "s2", "c"] 3 3 false,
       PathData.mk ["r", "s2", "d"] 4 4 false] : List PathData).map
        pdName).Nodup ∧
    (([PathData.mk ["r", "s2", "c"] 3 3 false,
       PathData.mk ["r", "s2", "d"] 4 4 false] : List PathData).map
        fingerprint).Nodup ∧
    (((deleted_candidates exFS4b ["a", "b"]
        (snap_files_of exFS4b ["r"] [] ["s1", "s2"])).map fingerprint).Nodup →
      List.Perm
        (([PathData.mk ["r", "s2", "c"] 3 3 false,
           PathData.mk ["r", "s2", "d"] 4 4 false] : List PathData).map
            pdName)
        ((dedupByKeyLast id
          ((snap_files_of exFS4b ["r"] [] ["s1", "s2"]).map Prod.fst)).filter
          (fun n => !(decide (n ∈ ["a", "b"]))))) :=
  C4_deleted_exact_names exFS4b ["live"] ["r"] [] ["a", "b"] ["s1", "s2"]
    [PathData.mk ["r", "s2", "c"] 3 3 false,
     PathData.mk ["r", "s2", "d"] 4 4 false]
    (by decide) (by decide) (by decide)
